import Mathlib

/-!
Verification of the thread entity of the emulated-kernel scheduling model
(`src/core/hle/kernel/thread.h`).  The repository ships only the header:
enums, field declarations and the inline accessors are taken directly from
`thread.h`; the bodies of the non-inline member functions are modelled from
the specification document, as marked on each definition.
-/

namespace ThreadSpec

/-- Thread status enum, from `thread.h` (`enum class ThreadStatus`). -/
inductive ThreadStatus
  | Running
  | Ready
  | WaitHLEEvent
  | WaitSleep
  | WaitIPC
  | WaitSynchAny
  | WaitSynchAll
  | WaitMutex
  | WaitArb
  | Dormant
  | Dead
  deriving DecidableEq

/-- Wakeup reason enum, from `thread.h` (`enum class ThreadWakeupReason`). -/
inductive ThreadWakeupReason
  | Signal
  | Timeout
  deriving DecidableEq

/-- From `thread.h` (`enum ThreadPriority`): highest thread priority. -/
def THREADPRIO_HIGHEST : Nat := 0

/-- From `thread.h`: highest priority for userland apps. -/
def THREADPRIO_USERLAND_MAX : Nat := 24

/-- From `thread.h`: default priority for userland apps. -/
def THREADPRIO_DEFAULT : Nat := 44

/-- From `thread.h`: lowest thread priority. -/
def THREADPRIO_LOWEST : Nat := 63

/-- From `thread.h` (`enum ThreadProcessorId`): run on the default core. -/
def THREADPROCESSORID_DEFAULT : Int := -2

/-- From `thread.h`: processor id must be less than this. -/
def THREADPROCESSORID_MAX : Int := 4

/-- The thread entity.  Fields follow the member declarations of `class
Thread` in `thread.h`; wait objects and fellow threads are referred to by
numeric identity, and the execution-context / TLS / handle plumbing that no
claim constrains is omitted.  The `wakeup_pending` flag stands for the
pending wakeup-timer token (`callback_handle` registration) and
`wakeup_reason` for the wakeup outcome slot described by the spec. -/
structure Thread where
  thread_id : Nat
  status : ThreadStatus
  entry_point : Nat
  stack_top : Nat
  nominal_priority : Nat
  current_priority : Nat
  processor_id : Int
  wait_objects : List Nat
  wait_mutex_threads : List Nat
  lock_owner : Option Nat
  wakeup_pending : Bool
  wakeup_reason : Option ThreadWakeupReason
  deriving DecidableEq

/-- From `thread.h` (inline): `GetPriority` returns `current_priority`. -/
def GetPriority (t : Thread) : Nat :=
  t.current_priority

/-- From `thread.h` (inline): `IsSleepingOnWaitAll` returns
`status == ThreadStatus::WaitSynchAll`. -/
def IsSleepingOnWaitAll (t : Thread) : Bool :=
  t.status == ThreadStatus.WaitSynchAll

/-- Modelled from the spec (body of `Thread::BoostPriority` is not in the
header): "sets current_priority only (not nominal)". -/
def BoostPriority (t : Thread) (priority : Nat) : Thread :=
  { t with current_priority := priority }

/-- Modelled from the spec (body of `Thread::CancelWakeupTimer` is not in
the header): cancels any outstanding wakeup event; idempotent, a no-op if
nothing is pending. -/
def CancelWakeupTimer (t : Thread) : Thread :=
  { t with wakeup_pending := false }

/-- Modelled from the spec (body of `Thread::WakeAfterDelay` is not in the
header): arms a one-shot wakeup timer. -/
def WakeAfterDelay (t : Thread) (_nanoseconds : Int) : Thread :=
  { t with wakeup_pending := true }

/-- Modelled from the spec (body of `Thread::ResumeFromWait` is not in the
header): clears wait registrations and `lock_owner`, cancels any pending
wakeup timer, sets status Ready. -/
def ResumeFromWait (t : Thread) : Thread :=
  { t with
    wait_objects := []
    lock_owner := none
    wakeup_pending := false
    status := ThreadStatus.Ready }

/-- Whether a status is one of the `Wait*` blocked states of the state
machine in spec §4.1. -/
def isWaitingStatus : ThreadStatus → Bool
  | ThreadStatus.WaitHLEEvent => true
  | ThreadStatus.WaitSleep => true
  | ThreadStatus.WaitIPC => true
  | ThreadStatus.WaitSynchAny => true
  | ThreadStatus.WaitSynchAll => true
  | ThreadStatus.WaitMutex => true
  | ThreadStatus.WaitArb => true
  | _ => false

/-- Modelled from the spec (the wakeup-timer callback body is not in the
header): when the timer armed by `WakeAfterDelay` fires it invokes
`ResumeFromWait` with outcome reason Timeout, unless the wait has already
resolved — a fire on a thread no longer in a waiting status is a no-op. -/
def ThreadWakeupCallback (t : Thread) : Thread :=
  if isWaitingStatus t.status then
    ResumeFromWait { t with wakeup_reason := some ThreadWakeupReason.Timeout }
  else
    t

/-- Creation failures, from spec §4.1 / §6: a closed, typed result
distinguishing the four causes. -/
inductive ThreadCreateError
  | InvalidPriority
  | InvalidProcessorId
  | OutOfHandles
  | StackMisaligned
  deriving DecidableEq

/-- Modelled from the spec (body of `Thread::Create` is not in the header):
checks the requested priority against the legal range (`THREADPRIO_LOWEST`
from `thread.h`), the processor id against the legal ids of
`ThreadProcessorId`, then the handle-table and stack-alignment conditions
(environment-dependent, passed in as booleans), and on success returns a
new thread in Dormant status carrying the requested attributes. -/
def Create (entry_point : Nat) (priority : Nat) (processor_id : Int)
    (stack_top : Nat) (out_of_handles : Bool) (stack_misaligned : Bool)
    (new_id : Nat) : Except ThreadCreateError Thread :=
  if THREADPRIO_LOWEST < priority then
    Except.error ThreadCreateError.InvalidPriority
  else if ¬ (processor_id = THREADPROCESSORID_DEFAULT ∨
      (0 ≤ processor_id ∧ processor_id < THREADPROCESSORID_MAX)) then
    Except.error ThreadCreateError.InvalidProcessorId
  else if out_of_handles then
    Except.error ThreadCreateError.OutOfHandles
  else if stack_misaligned then
    Except.error ThreadCreateError.StackMisaligned
  else
    Except.ok
      { thread_id := new_id
        status := ThreadStatus.Dormant
        entry_point := entry_point
        stack_top := stack_top
        nominal_priority := priority
        current_priority := priority
        processor_id := processor_id
        wait_objects := []
        wait_mutex_threads := []
        lock_owner := none
        wakeup_pending := false
        wakeup_reason := none }

/-- Helper for `GetWaitObjectIndex`: index of the last occurrence of an
element in a list, `none` when absent. -/
def lastIndexAux : List Nat → Nat → Option Nat
  | [], _ => none
  | x :: xs, o =>
    match lastIndexAux xs o with
    | some i => some (i + 1)
    | none => if x = o then some 0 else none

/-- Modelled from the spec and the doc comment in `thread.h` (body of
`Thread::GetWaitObjectIndex` is not in the header): retrieves the index
that the object occupies in `wait_objects`, starting the search from the
last element, so duplicates resolve to the last matching index. -/
def GetWaitObjectIndex (wait_objects : List Nat) (object : Nat) : Option Nat :=
  lastIndexAux wait_objects object

theorem lastIndexAux_eq_none (l : List Nat) (o : Nat) :
    lastIndexAux l o = none ↔ o ∉ l := by
  induction l with
  | nil => simp [lastIndexAux]
  | cons x xs ih =>
    simp only [lastIndexAux]
    cases h : lastIndexAux xs o with
    | some i =>
      have ho : o ∈ xs := by
        by_contra hn
        rw [ih.mpr hn] at h
        exact Option.noConfusion h
      simp [List.mem_cons, ho]
    | none =>
      have hnot : o ∉ xs := ih.mp h
      by_cases hx : x = o
      · subst hx
        simp [List.mem_cons]
      · have hox : o ≠ x := fun he => hx he.symm
        simp [hx, List.mem_cons, hnot, hox]

/-! ### Kernel state: priority inheritance across the thread graph

`AddMutexWaiter`, `RemoveMutexWaiter`, `SetPriority` and `UpdatePriority`
mutate other threads through the `lock_owner` / `wait_mutex_threads`
links, so they are modelled as transformers of a kernel state mapping each
thread id to its `Thread` record.  `UpdatePriority` walks the
`lock_owner` chain; the walk is bounded by an explicit fuel, which the
spec's forest (acyclicity) invariant guarantees is enough. -/

/-- A kernel state: every thread id carries a `Thread` record. -/
def KState : Type := Nat → Thread

/-- Replace the record of thread `i`. -/
def setT (s : KState) (i : Nat) (t : Thread) : KState :=
  fun j => if j = i then t else s j

/-- The current (effective) priority of thread `i` in state `s`. -/
def curr (s : KState) (i : Nat) : Nat :=
  (s i).current_priority

/-- The priority the inheritance rule assigns to thread `i`:
min(nominal_priority, min of current_priority over wait_mutex_threads),
the minimum over an empty waiter list contributing nothing. -/
def computedPriority (s : KState) (i : Nat) : Nat :=
  ((s i).wait_mutex_threads.map (curr s)).foldr min (s i).nominal_priority

/-- Modelled from the spec (body of `Thread::UpdatePriority` is not in the
header): `current_priority = min(nominal_priority, min over
wait_mutex_threads of their current_priority)`; if the value changed, the
recomputation continues at this thread's own `lock_owner` (a chain walk,
bounded here by fuel, terminating by the acyclic-forest invariant). -/
def UpdatePriority : Nat → KState → Nat → KState
  | 0, s, _ => s
  | fuel + 1, s, i =>
    if computedPriority s i = (s i).current_priority then s
    else
      match (s i).lock_owner with
      | none => setT s i { s i with current_priority := computedPriority s i }
      | some o =>
        UpdatePriority fuel
          (setT s i { s i with current_priority := computedPriority s i }) o

/-- The linking part of `AddMutexWaiter`: `waiter.lock_owner := holder`
and `waiter` appended to `holder.wait_mutex_threads`, before the holder's
priority recomputation. -/
def addWaiterPre (s : KState) (holder waiter : Nat) : KState :=
  let s1 := setT s waiter { s waiter with lock_owner := some holder }
  setT s1 holder
    { s1 holder with
      wait_mutex_threads := (s1 holder).wait_mutex_threads ++ [waiter] }

/-- Modelled from the spec (body of `Thread::AddMutexWaiter` is not in the
header): records `waiter` as blocked on a mutex held by `holder`
(spec §4.4: `requester.lock_owner = holder`, waiter appended to
`holder.wait_mutex_threads`), then synchronously recomputes the holder's
priority. -/
def AddMutexWaiter (fuel : Nat) (s : KState) (holder waiter : Nat) : KState :=
  UpdatePriority fuel (addWaiterPre s holder waiter) holder

/-- The unlinking part of `RemoveMutexWaiter`: clears `waiter.lock_owner`
and removes `waiter` from `holder.wait_mutex_threads`, before the holder's
priority recomputation. -/
def removeWaiterPre (s : KState) (holder waiter : Nat) : KState :=
  let s1 := setT s waiter { s waiter with lock_owner := none }
  setT s1 holder
    { s1 holder with
      wait_mutex_threads :=
        (s1 holder).wait_mutex_threads.filter (fun w => w ≠ waiter) }

/-- Modelled from the spec (body of `Thread::RemoveMutexWaiter` is not in
the header): detaches `waiter` from `holder`'s waiter set, clears the
waiter's `lock_owner`, then recomputes the holder's priority. -/
def RemoveMutexWaiter (fuel : Nat) (s : KState) (holder waiter : Nat) : KState :=
  UpdatePriority fuel (removeWaiterPre s holder waiter) holder

/-- Modelled from the spec (body of `Thread::SetPriority` is not in the
header): sets `nominal_priority = p`, then re-derives `current_priority`
via the inheritance rule. -/
def SetPriority (fuel : Nat) (s : KState) (i : Nat) (p : Nat) : KState :=
  UpdatePriority fuel (setT s i { s i with nominal_priority := p }) i

/-- The waiter lists agree with the `lock_owner` back-pointers: a thread
found in someone's `wait_mutex_threads` names that someone as its
`lock_owner`. -/
def Consistent (s : KState) : Prop :=
  ∀ a b, b ∈ (s a).wait_mutex_threads → (s b).lock_owner = some a

/-- The `lock_owner` relation is ranked (hence acyclic): a ranking
function strictly decreases from a thread to its lock owner.  This is the
spec's forest invariant in a form usable for the bounded chain walk. -/
def Ranked (rank : Nat → Nat) (s : KState) : Prop :=
  ∀ a b, (s a).lock_owner = some b → rank b < rank a

/-- The priority-inheritance invariant of spec §3/§8: every thread's
current_priority equals the value the inheritance rule computes for it. -/
def PriorityInv (s : KState) : Prop :=
  ∀ i, curr s i = computedPriority s i

theorem setT_same (s : KState) (i : Nat) (t : Thread) : setT s i t i = t := by
  simp [setT]

theorem setT_other (s : KState) (i : Nat) (t : Thread) (j : Nat) (h : j ≠ i) :
    setT s i t j = s j := by
  simp [setT, h]

theorem computedPriority_congr (s s' : KState) (j : Nat)
    (hw : (s' j).wait_mutex_threads = (s j).wait_mutex_threads)
    (hn : (s' j).nominal_priority = (s j).nominal_priority)
    (hc : ∀ w ∈ (s j).wait_mutex_threads, curr s' w = curr s w) :
    computedPriority s' j = computedPriority s j := by
  unfold computedPriority
  rw [hw, hn, List.map_congr_left hc]

theorem no_self_wait (rank : Nat → Nat) (s : KState) (i : Nat)
    (hcons : Consistent s) (hrank : Ranked rank s) :
    i ∉ (s i).wait_mutex_threads := by
  intro hm
  have h1 := hrank i i (hcons i i hm)
  omega

/-- Properties of the state obtained by overwriting thread `i`'s current
priority with its recomputed value: consistency and rankedness are
untouched, the invariant holds at `i`, and it still holds at every thread
whose waiter list does not contain `i`. -/
theorem recompute_step_props (rank : Nat → Nat) (s : KState) (i : Nat)
    (hcons : Consistent s) (hrank : Ranked rank s)
    (hpre : ∀ j, j ≠ i → curr s j = computedPriority s j) :
    Consistent (setT s i { s i with current_priority := computedPriority s i }) ∧
    Ranked rank (setT s i { s i with current_priority := computedPriority s i }) ∧
    (∀ j, j ≠ i → i ∉ (s j).wait_mutex_threads →
      curr (setT s i { s i with current_priority := computedPriority s i }) j =
        computedPriority
          (setT s i { s i with current_priority := computedPriority s i }) j) ∧
    curr (setT s i { s i with current_priority := computedPriority s i }) i =
      computedPriority
        (setT s i { s i with current_priority := computedPriority s i }) i := by
  set s' : KState :=
    setT s i { s i with current_priority := computedPriority s i } with hs'
  have hfields : ∀ x, (s' x).wait_mutex_threads = (s x).wait_mutex_threads ∧
      (s' x).nominal_priority = (s x).nominal_priority ∧
      (s' x).lock_owner = (s x).lock_owner := by
    intro x
    by_cases hx : x = i
    · subst hx
      rw [hs', setT_same]
      exact ⟨rfl, rfl, rfl⟩
    · rw [hs', setT_other _ _ _ _ hx]
      exact ⟨rfl, rfl, rfl⟩
  have hcurr_other : ∀ x, x ≠ i → curr s' x = curr s x := by
    intro x hx
    show (s' x).current_priority = (s x).current_priority
    rw [hs', setT_other _ _ _ _ hx]
  have hcurr_i : curr s' i = computedPriority s i := by
    show (s' i).current_priority = computedPriority s i
    rw [hs', setT_same]
  have hcong : ∀ j, i ∉ (s j).wait_mutex_threads →
      computedPriority s' j = computedPriority s j := by
    intro j hnm
    apply computedPriority_congr
    · exact (hfields j).1
    · exact (hfields j).2.1
    · intro w hw
      exact hcurr_other w (fun he => hnm (he ▸ hw))
  have hnotmem : i ∉ (s i).wait_mutex_threads := no_self_wait rank s i hcons hrank
  refine ⟨?_, ?_, ?_, ?_⟩
  · intro a b hb
    rw [(hfields a).1] at hb
    rw [(hfields b).2.2]
    exact hcons a b hb
  · intro a b hb
    rw [(hfields a).2.2] at hb
    exact hrank a b hb
  · intro j hj hnm
    rw [hcurr_other j hj, hcong j hnm]
    exact hpre j hj
  · rw [hcurr_i, hcong i hnotmem]

/-- If the priority-inheritance invariant holds everywhere except possibly
at thread `i`, then running `UpdatePriority` at `i` with enough fuel to
cover the (ranked, hence acyclic) lock-owner chain restores the invariant
everywhere. -/
theorem UpdatePriority_inv (rank : Nat → Nat) :
    ∀ (fuel : Nat) (s : KState) (i : Nat),
      Consistent s → Ranked rank s →
      (∀ j, j ≠ i → curr s j = computedPriority s j) →
      rank i < fuel →
      PriorityInv (UpdatePriority fuel s i) := by
  intro fuel
  induction fuel with
  | zero =>
    intro s i _ _ _ hlt
    exact absurd hlt (Nat.not_lt_zero _)
  | succ fuel ih =>
    intro s i hcons hrank hpre hlt
    by_cases heq : computedPriority s i = (s i).current_priority
    · have hres : UpdatePriority (fuel + 1) s i = s := by
        simp only [UpdatePriority, if_pos heq]
      rw [hres]
      intro j
      by_cases hj : j = i
      · subst hj
        exact heq.symm
      · exact hpre j hj
    · obtain ⟨hcons', hrank', hother', hself'⟩ :=
        recompute_step_props rank s i hcons hrank hpre
      cases hlo : (s i).lock_owner with
      | none =>
        have hres : UpdatePriority (fuel + 1) s i =
            setT s i { s i with current_priority := computedPriority s i } := by
          simp only [UpdatePriority, if_neg heq, hlo]
        rw [hres]
        intro j
        by_cases hj : j = i
        · subst hj
          exact hself'
        · refine hother' j hj ?_
          intro hm
          have h2 := hcons j i hm
          rw [hlo] at h2
          exact Option.noConfusion h2
      | some o =>
        have hres : UpdatePriority (fuel + 1) s i =
            UpdatePriority fuel
              (setT s i { s i with current_priority := computedPriority s i }) o := by
          simp only [UpdatePriority, if_neg heq, hlo]
        rw [hres]
        apply ih _ o hcons' hrank'
        · intro j hj
          by_cases hji : j = i
          · subst hji
            exact hself'
          · refine hother' j hji ?_
            intro hm
            have h2 := hcons j i hm
            rw [hlo] at h2
            have : o = j := Option.some.inj h2
            exact hj this.symm
        · have h1 := hrank i o hlo
          omega

theorem addWaiterPre_eval (s : KState) (holder waiter : Nat)
    (hne : holder ≠ waiter) (x : Nat) :
    addWaiterPre s holder waiter x =
      if x = holder then
        { s holder with
          wait_mutex_threads := (s holder).wait_mutex_threads ++ [waiter] }
      else if x = waiter then { s waiter with lock_owner := some holder }
      else s x := by
  unfold addWaiterPre
  by_cases hxh : x = holder
  · subst hxh
    simp [setT, hne]
  · by_cases hxw : x = waiter
    · subst hxw
      simp [setT, hxh]
    · simp [setT, hxh, hxw]

theorem removeWaiterPre_eval (s : KState) (holder waiter : Nat)
    (hne : holder ≠ waiter) (x : Nat) :
    removeWaiterPre s holder waiter x =
      if x = holder then
        { s holder with
          wait_mutex_threads :=
            (s holder).wait_mutex_threads.filter (fun w => w ≠ waiter) }
      else if x = waiter then { s waiter with lock_owner := none }
      else s x := by
  unfold removeWaiterPre
  by_cases hxh : x = holder
  · subst hxh
    simp [setT, hne]
  · by_cases hxw : x = waiter
    · subst hxw
      simp [setT, hxh]
    · simp [setT, hxh, hxw]

theorem addWaiterPre_lock_owner (s : KState) (holder waiter : Nat)
    (hne : holder ≠ waiter) (x : Nat) :
    (addWaiterPre s holder waiter x).lock_owner =
      if x = waiter then some holder else (s x).lock_owner := by
  rw [addWaiterPre_eval s holder waiter hne]
  by_cases hxh : x = holder
  · subst hxh
    simp [hne]
  · by_cases hxw : x = waiter
    · subst hxw
      simp [hxh]
    · simp [hxh, hxw]

theorem addWaiterPre_waiters (s : KState) (holder waiter : Nat)
    (hne : holder ≠ waiter) (x : Nat) :
    (addWaiterPre s holder waiter x).wait_mutex_threads =
      if x = holder then (s holder).wait_mutex_threads ++ [waiter]
      else (s x).wait_mutex_threads := by
  rw [addWaiterPre_eval s holder waiter hne]
  by_cases hxh : x = holder
  · subst hxh
    simp
  · by_cases hxw : x = waiter
    · subst hxw
      simp [hxh]
    · simp [hxh, hxw]

theorem addWaiterPre_nominal (s : KState) (holder waiter : Nat)
    (hne : holder ≠ waiter) (x : Nat) :
    (addWaiterPre s holder waiter x).nominal_priority =
      (s x).nominal_priority := by
  rw [addWaiterPre_eval s holder waiter hne]
  by_cases hxh : x = holder
  · subst hxh
    simp
  · by_cases hxw : x = waiter
    · subst hxw
      simp [hxh]
    · simp [hxh, hxw]

theorem addWaiterPre_curr (s : KState) (holder waiter : Nat)
    (hne : holder ≠ waiter) (x : Nat) :
    curr (addWaiterPre s holder waiter) x = curr s x := by
  show (addWaiterPre s holder waiter x).current_priority = _
  rw [addWaiterPre_eval s holder waiter hne]
  by_cases hxh : x = holder
  · subst hxh
    simp [curr]
  · by_cases hxw : x = waiter
    · subst hxw
      simp [hxh, curr]
    · simp [hxh, hxw, curr]

theorem removeWaiterPre_lock_owner (s : KState) (holder waiter : Nat)
    (hne : holder ≠ waiter) (x : Nat) :
    (removeWaiterPre s holder waiter x).lock_owner =
      if x = waiter then none else (s x).lock_owner := by
  rw [removeWaiterPre_eval s holder waiter hne]
  by_cases hxh : x = holder
  · subst hxh
    simp [hne]
  · by_cases hxw : x = waiter
    · subst hxw
      simp [hxh]
    · simp [hxh, hxw]

theorem removeWaiterPre_waiters (s : KState) (holder waiter : Nat)
    (hne : holder ≠ waiter) (x : Nat) :
    (removeWaiterPre s holder waiter x).wait_mutex_threads =
      if x = holder then
        (s holder).wait_mutex_threads.filter (fun w => w ≠ waiter)
      else (s x).wait_mutex_threads := by
  rw [removeWaiterPre_eval s holder waiter hne]
  by_cases hxh : x = holder
  · subst hxh
    simp
  · by_cases hxw : x = waiter
    · subst hxw
      simp [hxh]
    · simp [hxh, hxw]

theorem removeWaiterPre_nominal (s : KState) (holder waiter : Nat)
    (hne : holder ≠ waiter) (x : Nat) :
    (removeWaiterPre s holder waiter x).nominal_priority =
      (s x).nominal_priority := by
  rw [removeWaiterPre_eval s holder waiter hne]
  by_cases hxh : x = holder
  · subst hxh
    simp
  · by_cases hxw : x = waiter
    · subst hxw
      simp [hxh]
    · simp [hxh, hxw]

theorem removeWaiterPre_curr (s : KState) (holder waiter : Nat)
    (hne : holder ≠ waiter) (x : Nat) :
    curr (removeWaiterPre s holder waiter) x = curr s x := by
  show (removeWaiterPre s holder waiter x).current_priority = _
  rw [removeWaiterPre_eval s holder waiter hne]
  by_cases hxh : x = holder
  · subst hxh
    simp [curr]
  · by_cases hxw : x = waiter
    · subst hxw
      simp [hxh, curr]
    · simp [hxh, hxw, curr]

/-- Adding a waiter (with no lock owner yet, and ranked below its new
holder) preserves consistency and rankedness, and perturbs the
priority-inheritance invariant at most at the holder. -/
theorem addWaiterPre_props (rank : Nat → Nat) (s : KState) (holder waiter : Nat)
    (hcons : Consistent s) (hrank : Ranked rank s) (hinv : PriorityInv s)
    (hlow : (s waiter).lock_owner = none) (hr : rank holder < rank waiter) :
    Consistent (addWaiterPre s holder waiter) ∧
    Ranked rank (addWaiterPre s holder waiter) ∧
    (∀ j, j ≠ holder →
      curr (addWaiterPre s holder waiter) j =
        computedPriority (addWaiterPre s holder waiter) j) := by
  have hne : holder ≠ waiter := by
    intro he
    rw [he] at hr
    omega
  refine ⟨?_, ?_, ?_⟩
  · intro a b hb
    rw [addWaiterPre_waiters s holder waiter hne] at hb
    rw [addWaiterPre_lock_owner s holder waiter hne]
    by_cases hah : a = holder
    · subst hah
      rw [if_pos rfl] at hb
      rcases List.mem_append.mp hb with hb | hb
      · have hlob := hcons a b hb
        have hbw : b ≠ waiter := by
          intro he
          rw [he, hlow] at hlob
          exact Option.noConfusion hlob
        rw [if_neg hbw]
        exact hlob
      · have hbw : b = waiter := List.mem_singleton.mp hb
        rw [if_pos hbw]
    · rw [if_neg hah] at hb
      have hlob := hcons a b hb
      have hbw : b ≠ waiter := by
        intro he
        rw [he, hlow] at hlob
        exact Option.noConfusion hlob
      rw [if_neg hbw]
      exact hlob
  · intro a b hb
    rw [addWaiterPre_lock_owner s holder waiter hne] at hb
    by_cases haw : a = waiter
    · subst haw
      rw [if_pos rfl] at hb
      have hbh : holder = b := Option.some.inj hb
      subst hbh
      exact hr
    · rw [if_neg haw] at hb
      exact hrank a b hb
  · intro j hj
    have hcong : computedPriority (addWaiterPre s holder waiter) j =
        computedPriority s j := by
      apply computedPriority_congr
      · rw [addWaiterPre_waiters s holder waiter hne, if_neg hj]
      · exact addWaiterPre_nominal s holder waiter hne j
      · intro w _
        exact addWaiterPre_curr s holder waiter hne w
    rw [addWaiterPre_curr s holder waiter hne, hcong]
    exact hinv j

/-- Removing a genuine waiter preserves consistency and rankedness, and
perturbs the priority-inheritance invariant at most at the holder. -/
theorem removeWaiterPre_props (rank : Nat → Nat) (s : KState)
    (holder waiter : Nat)
    (hcons : Consistent s) (hrank : Ranked rank s) (hinv : PriorityInv s)
    (hlow : (s waiter).lock_owner = some holder) :
    Consistent (removeWaiterPre s holder waiter) ∧
    Ranked rank (removeWaiterPre s holder waiter) ∧
    (∀ j, j ≠ holder →
      curr (removeWaiterPre s holder waiter) j =
        computedPriority (removeWaiterPre s holder waiter) j) := by
  have hr : rank holder < rank waiter := hrank waiter holder hlow
  have hne : holder ≠ waiter := by
    intro he
    rw [he] at hr
    omega
  refine ⟨?_, ?_, ?_⟩
  · intro a b hb
    rw [removeWaiterPre_waiters s holder waiter hne] at hb
    rw [removeWaiterPre_lock_owner s holder waiter hne]
    by_cases hah : a = holder
    · subst hah
      rw [if_pos rfl] at hb
      have hb2 := List.mem_filter.mp hb
      have hbw : b ≠ waiter := of_decide_eq_true hb2.2
      rw [if_neg hbw]
      exact hcons a b hb2.1
    · rw [if_neg hah] at hb
      have hlob := hcons a b hb
      have hbw : b ≠ waiter := by
        intro he
        rw [he, hlow] at hlob
        exact hah (Option.some.inj hlob).symm
      rw [if_neg hbw]
      exact hlob
  · intro a b hb
    rw [removeWaiterPre_lock_owner s holder waiter hne] at hb
    by_cases haw : a = waiter
    · subst haw
      rw [if_pos rfl] at hb
      exact Option.noConfusion hb
    · rw [if_neg haw] at hb
      exact hrank a b hb
  · intro j hj
    have hcong : computedPriority (removeWaiterPre s holder waiter) j =
        computedPriority s j := by
      apply computedPriority_congr
      · rw [removeWaiterPre_waiters s holder waiter hne, if_neg hj]
      · exact removeWaiterPre_nominal s holder waiter hne j
      · intro w _
        exact removeWaiterPre_curr s holder waiter hne w
    rw [removeWaiterPre_curr s holder waiter hne, hcong]
    exact hinv j

/-- Overwriting a thread's nominal priority preserves consistency and
rankedness, and perturbs the priority-inheritance invariant at most at
that thread. -/
theorem setNominal_props (rank : Nat → Nat) (s : KState) (i : Nat) (p : Nat)
    (hcons : Consistent s) (hrank : Ranked rank s) (hinv : PriorityInv s) :
    Consistent (setT s i { s i with nominal_priority := p }) ∧
    Ranked rank (setT s i { s i with nominal_priority := p }) ∧
    (∀ j, j ≠ i →
      curr (setT s i { s i with nominal_priority := p }) j =
        computedPriority (setT s i { s i with nominal_priority := p }) j) := by
  set s' : KState := setT s i { s i with nominal_priority := p } with hs'
  have hw : ∀ x, (s' x).wait_mutex_threads = (s x).wait_mutex_threads := by
    intro x
    by_cases hx : x = i
    · subst hx
      rw [hs', setT_same]
    · rw [hs', setT_other _ _ _ _ hx]
  have hlo : ∀ x, (s' x).lock_owner = (s x).lock_owner := by
    intro x
    by_cases hx : x = i
    · subst hx
      rw [hs', setT_same]
    · rw [hs', setT_other _ _ _ _ hx]
  have hcu : ∀ x, curr s' x = curr s x := by
    intro x
    show (s' x).current_priority = (s x).current_priority
    by_cases hx : x = i
    · subst hx
      rw [hs', setT_same]
    · rw [hs', setT_other _ _ _ _ hx]
  refine ⟨?_, ?_, ?_⟩
  · intro a b hb
    rw [hw a] at hb
    rw [hlo b]
    exact hcons a b hb
  · intro a b hb
    rw [hlo a] at hb
    exact hrank a b hb
  · intro j hj
    have hcong : computedPriority s' j = computedPriority s j := by
      apply computedPriority_congr
      · exact hw j
      · rw [hs', setT_other _ _ _ _ hj]
      · intro w _
        exact hcu w
    rw [hcu j, hcong]
    exact hinv j

/-- C1: after any `AddMutexWaiter`, `RemoveMutexWaiter` or `SetPriority`
call completes, every thread's `current_priority` equals the minimum of
its `nominal_priority` and the `current_priority` of every thread in its
`wait_mutex_threads` (an empty waiter set contributing nothing).  Stated
as preservation of the invariant from any state satisfying the spec's
structural invariants: waiter/lock-owner consistency, a ranked (acyclic)
lock-owner forest with fuel covering the chain, and the invariant itself
holding before the call. -/
theorem c1_priority_inheritance_invariant (rank : Nat → Nat) (fuel : Nat)
    (s : KState) (holder waiter i p : Nat)
    (hcons : Consistent s) (hrank : Ranked rank s) (hinv : PriorityInv s) :
    ((s waiter).lock_owner = none → rank holder < rank waiter →
      rank holder < fuel → PriorityInv (AddMutexWaiter fuel s holder waiter)) ∧
    ((s waiter).lock_owner = some holder → rank holder < fuel →
      PriorityInv (RemoveMutexWaiter fuel s holder waiter)) ∧
    (rank i < fuel → PriorityInv (SetPriority fuel s i p)) := by
  refine ⟨?_, ?_, ?_⟩
  · intro hlow hr hf
    obtain ⟨hc, hk, hp⟩ :=
      addWaiterPre_props rank s holder waiter hcons hrank hinv hlow hr
    exact UpdatePriority_inv rank fuel _ holder hc hk hp hf
  · intro hlow hf
    obtain ⟨hc, hk, hp⟩ :=
      removeWaiterPre_props rank s holder waiter hcons hrank hinv hlow
    exact UpdatePriority_inv rank fuel _ holder hc hk hp hf
  · intro hf
    obtain ⟨hc, hk, hp⟩ := setNominal_props rank s i p hcons hrank hinv
    exact UpdatePriority_inv rank fuel _ i hc hk hp hf

/-! ### Concrete example states -/

/-- A quiescent thread record used as the base of concrete examples. -/
def threadTemplate : Thread :=
  { thread_id := 0
    status := ThreadStatus.Dormant
    entry_point := 0
    stack_top := 0
    nominal_priority := THREADPRIO_DEFAULT
    current_priority := THREADPRIO_DEFAULT
    processor_id := 0
    wait_objects := []
    wait_mutex_threads := []
    lock_owner := none
    wakeup_pending := false
    wakeup_reason := none }

/-- Thread A of the mutex hand-off scenario: nominal priority 10. -/
def threadA : Thread :=
  { threadTemplate with
    status := ThreadStatus.Running
    nominal_priority := 10
    current_priority := 10 }

/-- Thread B of the mutex hand-off scenario: priority 2. -/
def threadB : Thread :=
  { threadTemplate with
    thread_id := 1
    status := ThreadStatus.Running
    nominal_priority := 2
    current_priority := 2 }

/-- State with A (id 0) and B (id 1) unrelated: no waiter links. -/
def sAB : KState := fun i =>
  match i with
  | 0 => threadA
  | 1 => threadB
  | _ => threadTemplate

/-- Thread A while holding the mutex B waits for: priority inherited. -/
def threadA2 : Thread :=
  { threadA with
    current_priority := 2
    wait_mutex_threads := [1] }

/-- Thread B while blocked on A's mutex. -/
def threadB2 : Thread :=
  { threadB with
    status := ThreadStatus.WaitMutex
    lock_owner := some 0 }

/-- State in which B (id 1) is already a mutex waiter of A (id 0). -/
def sAB2 : KState := fun i =>
  match i with
  | 0 => threadA2
  | 1 => threadB2
  | _ => threadTemplate

theorem sAB_consistent : Consistent sAB := by
  intro a b hb
  have hempty : (sAB a).wait_mutex_threads = [] := by
    rcases a with _ | _ | a <;> rfl
  rw [hempty] at hb
  exact absurd hb (List.not_mem_nil b)

theorem sAB_ranked : Ranked id sAB := by
  intro a b hb
  have hnone : (sAB a).lock_owner = none := by
    rcases a with _ | _ | a <;> rfl
  rw [hnone] at hb
  exact Option.noConfusion hb

theorem sAB_inv : PriorityInv sAB := by
  intro i
  rcases i with _ | _ | i <;> rfl

theorem sAB2_consistent : Consistent sAB2 := by
  intro a b hb
  rcases a with _ | _ | a
  · have hb1 : b = 1 := by simpa [sAB2, threadA2, threadA, threadTemplate] using hb
    subst hb1
    rfl
  · exact absurd hb (List.not_mem_nil b)
  · exact absurd hb (List.not_mem_nil b)

theorem sAB2_ranked : Ranked id sAB2 := by
  intro a b hb
  rcases a with _ | _ | a
  · exact Option.noConfusion hb
  · have hb0 : (0 : Nat) = b := Option.some.inj hb
    subst hb0
    decide
  · exact Option.noConfusion hb

theorem sAB2_inv : PriorityInv sAB2 := by
  intro i
  rcases i with _ | _ | i <;> rfl

theorem c1_witness :
    PriorityInv (AddMutexWaiter 4 sAB 0 1) ∧
    PriorityInv (RemoveMutexWaiter 4 sAB2 0 1) ∧
    PriorityInv (SetPriority 4 sAB 0 7) := by
  refine ⟨?_, ?_, ?_⟩
  · exact (c1_priority_inheritance_invariant id 4 sAB 0 1 0 7 sAB_consistent
      sAB_ranked sAB_inv).1 rfl (by decide) (by decide)
  · exact (c1_priority_inheritance_invariant id 4 sAB2 0 1 0 7 sAB2_consistent
      sAB2_ranked sAB2_inv).2.1 rfl (by decide)
  · exact (c1_priority_inheritance_invariant id 4 sAB 0 1 0 7 sAB_consistent
      sAB_ranked sAB_inv).2.2 (by decide)

/-- C5: with holder A (id 0, nominal priority 10) and requester B (id 1,
current priority 2), `A.AddMutexWaiter(B)` synchronously drops
`A.current_priority` to 2, and the subsequent `A.RemoveMutexWaiter(B)`
restores it to its nominal value 10. -/
theorem c5_mutex_handoff_roundtrip :
    (sAB 0).nominal_priority = 10 ∧
    (sAB 1).current_priority = 2 ∧
    curr (AddMutexWaiter 4 sAB 0 1) 0 = 2 ∧
    curr (RemoveMutexWaiter 4 (AddMutexWaiter 4 sAB 0 1) 0 1) 0 = 10 := by
  refine ⟨rfl, rfl, rfl, rfl⟩

/-- C2: every successful `Thread::Create` returns a thread whose status is
Dormant — it is not yet Ready or Running. -/
theorem c2_create_returns_dormant (entry_point priority : Nat)
    (processor_id : Int) (stack_top : Nat)
    (out_of_handles stack_misaligned : Bool) (new_id : Nat) (t : Thread)
    (h : Create entry_point priority processor_id stack_top out_of_handles
      stack_misaligned new_id = Except.ok t) :
    t.status = ThreadStatus.Dormant := by
  unfold Create at h
  split_ifs at h
  injection h with h2
  rw [← h2]

/-- The thread record produced by a representative successful creation. -/
def createdExample : Thread :=
  { thread_id := 7
    status := ThreadStatus.Dormant
    entry_point := 4096
    stack_top := 8192
    nominal_priority := THREADPRIO_DEFAULT
    current_priority := THREADPRIO_DEFAULT
    processor_id := 0
    wait_objects := []
    wait_mutex_threads := []
    lock_owner := none
    wakeup_pending := false
    wakeup_reason := none }

theorem c2_witness :
    Create 4096 THREADPRIO_DEFAULT 0 8192 false false 7 =
      Except.ok createdExample ∧
    createdExample.status = ThreadStatus.Dormant := by
  refine ⟨rfl, ?_⟩
  exact c2_create_returns_dormant 4096 THREADPRIO_DEFAULT 0 8192 false false 7
    createdExample rfl

/-- C3: `Thread::Create` returns either success with the new thread or
exactly one of the four typed failures, and it returns InvalidPriority
exactly when the requested priority exceeds `THREADPRIO_LOWEST` (63). -/
theorem c3_create_closed_typed_result (entry_point priority : Nat)
    (processor_id : Int) (stack_top : Nat)
    (out_of_handles stack_misaligned : Bool) (new_id : Nat) :
    ((∃ t, Create entry_point priority processor_id stack_top out_of_handles
        stack_misaligned new_id = Except.ok t) ∨
      Create entry_point priority processor_id stack_top out_of_handles
        stack_misaligned new_id =
          Except.error ThreadCreateError.InvalidPriority ∨
      Create entry_point priority processor_id stack_top out_of_handles
        stack_misaligned new_id =
          Except.error ThreadCreateError.InvalidProcessorId ∨
      Create entry_point priority processor_id stack_top out_of_handles
        stack_misaligned new_id =
          Except.error ThreadCreateError.OutOfHandles ∨
      Create entry_point priority processor_id stack_top out_of_handles
        stack_misaligned new_id =
          Except.error ThreadCreateError.StackMisaligned) ∧
    (Create entry_point priority processor_id stack_top out_of_handles
        stack_misaligned new_id =
          Except.error ThreadCreateError.InvalidPriority ↔
      THREADPRIO_LOWEST < priority) := by
  constructor
  · cases h : Create entry_point priority processor_id stack_top
      out_of_handles stack_misaligned new_id with
    | ok t => exact Or.inl ⟨t, rfl⟩
    | error e => cases e <;> simp
  · constructor
    · intro h
      by_contra hp
      unfold Create at h
      rw [if_neg hp] at h
      split_ifs at h <;> simp_all
    · intro hp
      unfold Create
      rw [if_pos hp]

theorem lastIndexAux_spec (o : Nat) : ∀ l : List Nat, o ∈ l →
    ∃ i, lastIndexAux l o = some i ∧ l.get? i = some o ∧
      ∀ j, i < j → l.get? j ≠ some o := by
  intro l
  induction l with
  | nil =>
    intro h
    exact absurd h (List.not_mem_nil o)
  | cons x xs ih =>
    intro hmem
    by_cases hx : o ∈ xs
    · obtain ⟨i, hi, hget, hafter⟩ := ih hx
      refine ⟨i + 1, ?_, ?_, ?_⟩
      · simp [lastIndexAux, hi]
      · simpa using hget
      · intro j hj
        cases j with
        | zero => omega
        | succ j' =>
          have hj' : i < j' := by omega
          simpa using hafter j' hj'
    · have hxo : x = o := by
        rcases List.mem_cons.mp hmem with h | h
        · exact h.symm
        · exact absurd h hx
      have hnone : lastIndexAux xs o = none := (lastIndexAux_eq_none xs o).mpr hx
      refine ⟨0, ?_, ?_, ?_⟩
      · simp [lastIndexAux, hnone, hxo]
      · simpa using hxo
      · intro j hj
        cases j with
        | zero => omega
        | succ j' =>
          intro hc
          exact hx (List.get?_mem (by simpa using hc))

/-- C4: for every wait object occurring in a thread's `wait_objects` list,
`GetWaitObjectIndex` returns the index of the last occurrence of that
object (no later position holds it); in particular for the list
`[E, E, F]` with `E ≠ F`, the resolved index of `E` is 1. -/
theorem c4_wait_object_index_last_occurrence :
    (∀ (l : List Nat) (o : Nat), o ∈ l →
      ∃ i, GetWaitObjectIndex l o = some i ∧ l.get? i = some o ∧
        ∀ j, i < j → l.get? j ≠ some o) ∧
    (∀ e f : Nat, e ≠ f → GetWaitObjectIndex [e, e, f] e = some 1) := by
  constructor
  · intro l o h
    exact lastIndexAux_spec o l h
  · intro e f hef
    have hfe : f ≠ e := Ne.symm hef
    simp [GetWaitObjectIndex, lastIndexAux, hfe]

theorem c4_witness :
    (0 : Nat) ∈ [0, 0, 1] ∧
    (∃ i, GetWaitObjectIndex [0, 0, 1] 0 = some i ∧
      [0, 0, 1].get? i = some 0 ∧ ∀ j, i < j → [0, 0, 1].get? j ≠ some 0) ∧
    (0 : Nat) ≠ 1 ∧
    GetWaitObjectIndex [0, 0, 1] 0 = some 1 := by
  refine ⟨by decide, ?_, by decide, ?_⟩
  · exact c4_wait_object_index_last_occurrence.1 [0, 0, 1] 0 (by decide)
  · exact c4_wait_object_index_last_occurrence.2 0 1 (by decide)

/-- C6: a wakeup-timer fire on a thread whose wait has already resolved
(no longer in any waiting status) leaves the thread unchanged; in
particular a thread already resumed with reason Signal keeps its state and
its Signal reason across the stale fire. -/
theorem c6_stale_timer_fire_noop (t : Thread) :
    (isWaitingStatus t.status = false → ThreadWakeupCallback t = t) ∧
    ThreadWakeupCallback
        (ResumeFromWait { t with wakeup_reason := some ThreadWakeupReason.Signal }) =
      ResumeFromWait { t with wakeup_reason := some ThreadWakeupReason.Signal } ∧
    (ResumeFromWait { t with wakeup_reason := some ThreadWakeupReason.Signal }).wakeup_reason =
      some ThreadWakeupReason.Signal := by
  refine ⟨?_, ?_, rfl⟩
  · intro h
    simp [ThreadWakeupCallback, h]
  · simp [ThreadWakeupCallback, ResumeFromWait, isWaitingStatus]

theorem c6_witness :
    isWaitingStatus threadTemplate.status = false ∧
    ThreadWakeupCallback threadTemplate = threadTemplate := by
  exact ⟨rfl, (c6_stale_timer_fire_noop threadTemplate).1 rfl⟩

/-- C7: `CancelWakeupTimer` is idempotent — with nothing pending it leaves
the thread unchanged, and cancelling twice equals cancelling once. -/
theorem c7_cancel_wakeup_timer_idempotent (t : Thread) :
    (t.wakeup_pending = false → CancelWakeupTimer t = t) ∧
    CancelWakeupTimer (CancelWakeupTimer t) = CancelWakeupTimer t := by
  constructor
  · intro h
    unfold CancelWakeupTimer
    rw [← h]
  · rfl

theorem c7_witness :
    threadTemplate.wakeup_pending = false ∧
    CancelWakeupTimer threadTemplate = threadTemplate := by
  exact ⟨rfl, (c7_cancel_wakeup_timer_idempotent threadTemplate).1 rfl⟩

/-- C8: `BoostPriority(p)` sets `current_priority` to `p` and leaves
`nominal_priority` and every other thread field unchanged; the boost is
transient — on the next `UpdatePriority` of a thread with no mutex waiter
(and no lock owner to propagate to) the current priority reverts to the
nominal one. -/
theorem c8_boost_priority_frame (t : Thread) (p : Nat) (s : KState)
    (i fuel : Nat) :
    ((BoostPriority t p).current_priority = p ∧
      (BoostPriority t p).nominal_priority = t.nominal_priority ∧
      (BoostPriority t p).thread_id = t.thread_id ∧
      (BoostPriority t p).status = t.status ∧
      (BoostPriority t p).entry_point = t.entry_point ∧
      (BoostPriority t p).stack_top = t.stack_top ∧
      (BoostPriority t p).processor_id = t.processor_id ∧
      (BoostPriority t p).wait_objects = t.wait_objects ∧
      (BoostPriority t p).wait_mutex_threads = t.wait_mutex_threads ∧
      (BoostPriority t p).lock_owner = t.lock_owner ∧
      (BoostPriority t p).wakeup_pending = t.wakeup_pending ∧
      (BoostPriority t p).wakeup_reason = t.wakeup_reason) ∧
    ((s i).wait_mutex_threads = [] → (s i).lock_owner = none →
      curr (UpdatePriority (fuel + 1) (setT s i (BoostPriority (s i) p)) i) i =
        (s i).nominal_priority) := by
  constructor
  · exact ⟨rfl, rfl, rfl, rfl, rfl, rfl, rfl, rfl, rfl, rfl, rfl, rfl⟩
  · intro hw hlo
    have h1 : setT s i (BoostPriority (s i) p) i = BoostPriority (s i) p :=
      setT_same s i (BoostPriority (s i) p)
    have hcomp : computedPriority (setT s i (BoostPriority (s i) p)) i =
        (s i).nominal_priority := by
      unfold computedPriority
      rw [h1]
      show ((s i).wait_mutex_threads.map _).foldr min (s i).nominal_priority = _
      rw [hw]
      rfl
    have hlo' : (setT s i (BoostPriority (s i) p) i).lock_owner = none := by
      rw [h1]
      exact hlo
    by_cases hcond : computedPriority (setT s i (BoostPriority (s i) p)) i =
        (setT s i (BoostPriority (s i) p) i).current_priority
    · have hres : UpdatePriority (fuel + 1) (setT s i (BoostPriority (s i) p)) i =
          setT s i (BoostPriority (s i) p) := by
        simp only [UpdatePriority, if_pos hcond]
      rw [hres]
      show (setT s i (BoostPriority (s i) p) i).current_priority = _
      rw [← hcond]
      exact hcomp
    · have hres : UpdatePriority (fuel + 1) (setT s i (BoostPriority (s i) p)) i =
          setT (setT s i (BoostPriority (s i) p)) i
            { setT s i (BoostPriority (s i) p) i with
              current_priority :=
                computedPriority (setT s i (BoostPriority (s i) p)) i } := by
        simp only [UpdatePriority, if_neg hcond, hlo']
      rw [hres]
      show (setT (setT s i (BoostPriority (s i) p)) i _ i).current_priority = _
      rw [setT_same]
      exact hcomp

theorem c8_witness :
    (sAB 0).wait_mutex_threads = [] ∧
    (sAB 0).lock_owner = none ∧
    curr (UpdatePriority 4 (setT sAB 0 (BoostPriority (sAB 0) 5)) 0) 0 =
      (sAB 0).nominal_priority := by
  exact ⟨rfl, rfl, (c8_boost_priority_frame threadA 5 sAB 0 3).2 rfl rfl⟩

/-- C9: `GetPriority` returns the effective `current_priority`, not
`nominal_priority`; after a `BoostPriority` the two can differ. -/
theorem c9_get_priority_is_current :
    (∀ t : Thread, GetPriority t = t.current_priority) ∧
    (∃ (t : Thread) (p : Nat),
      GetPriority (BoostPriority t p) ≠ (BoostPriority t p).nominal_priority) := by
  refine ⟨fun t => rfl, ⟨threadA, 2, ?_⟩⟩
  decide

/-- C10: `IsSleepingOnWaitAll` returns true exactly when the thread's
status is `WaitSynchAll`, and false in every other status. -/
theorem c10_is_sleeping_on_wait_all_iff (t : Thread) :
    IsSleepingOnWaitAll t = true ↔ t.status = ThreadStatus.WaitSynchAll := by
  simp [IsSleepingOnWaitAll]

end ThreadSpec
